import Mathlib

/-!
Shallow embedding of the Carte Blanche core: the rule matching engine
(src/engine.py), the workflow execution engine (src/workflow_engine.py)
and the action dispatcher (src/workers.py), with theorems checking the
specification claims against these definitions.

Python values flowing through the code (JSON data, tool results,
execution context entries) are modelled by the inductive type Value.
Numbers are modelled as integers; no claim involves floating point.
-/

namespace CarteBlanche

/-- Values manipulated by the Python code: JSON scalars, lists,
string-keyed mappings, and the Python None. -/
inductive Value where
  | str : String → Value
  | int : Int → Value
  | bool : Bool → Value
  | none : Value
  | list : List Value → Value
  | dict : List (String × Value) → Value

/-- Python dictionaries with string keys are modelled as association
lists with distinct keys, first binding wins on lookup. -/
abbrev Dict := List (String × Value)

/-- Truthiness of a value, as used by Python conditionals: empty
strings, zero, False, None and empty containers are falsy. -/
def pyTruthy : Value → Bool
  | .str s => !s.isEmpty
  | .int n => n != 0
  | .bool b => b
  | .none => false
  | .list l => !l.isEmpty
  | .dict d => !d.isEmpty

/-- Lookup of a key in a dictionary, returning an optional value. -/
def dictFind : Dict → String → Option Value
  | [], _ => Option.none
  | (k, v) :: d, key => if k = key then some v else dictFind d key

/-- Python d.get(key), whose default is None. -/
def dictGet (d : Dict) (key : String) : Value :=
  (dictFind d key).getD Value.none

/-- Python d.get(key, default) with an explicit default. -/
def dictGetD (d : Dict) (key : String) (dflt : Value) : Value :=
  (dictFind d key).getD dflt

/-- Python d[key] = v: overwrite the existing binding in place, or
append a new one (insertion order preserved). -/
def dictSet : Dict → String → Value → Dict
  | [], key, v => [(key, v)]
  | (k, w) :: d, key, v =>
    if k = key then (key, v) :: d else (k, w) :: dictSet d key v

/-- View of a value as a mapping.  The source only reaches the mapping
operations used below on mapping-shaped data (the rule, trigger,
workflow, step and tool-result objects of the data model); other shapes
would raise an uncaught AttributeError in Python and are out of scope,
so they are mapped to the empty mapping. -/
def asDict : Value → Dict
  | .dict d => d
  | _ => []

/-- View of a value as a list; non-list shapes are out of scope for the
same reason as in asDict. -/
def asList : Value → List Value
  | .list l => l
  | _ => []

/-- View of a value as a string; non-string shapes are out of scope for
the same reason as in asDict. -/
def asString : Value → String
  | .str s => s
  | _ => ""

/-- Python equality of an arbitrary value against a string: only equal
strings compare equal. -/
def valueEqStr : Value → String → Bool
  | .str s, t => s == t
  | _, _ => false

mutual

/-- Python repr of a value.  Escaping of quote characters inside
strings is not modelled; no claim depends on it. -/
def pyRepr : Value → String
  | .str s => "\x27" ++ s ++ "\x27"
  | .int n => toString n
  | .bool b => if b then "True" else "False"
  | .none => "None"
  | .list xs => "[" ++ String.intercalate ", " (pyReprList xs) ++ "]"
  | .dict d => "\x7b" ++ String.intercalate ", " (pyReprDict d) ++ "\x7d"

/-- Reprs of the elements of a list. -/
def pyReprList : List Value → List String
  | [] => []
  | v :: vs => pyRepr v :: pyReprList vs

/-- Reprs of the entries of a dictionary. -/
def pyReprDict : List (String × Value) → List String
  | [] => []
  | (k, v) :: d => ("\x27" ++ k ++ "\x27: " ++ pyRepr v) :: pyReprDict d

end

/-- Python str() of a value: the identity on strings, repr otherwise
(which agrees with str on numbers, booleans and None). -/
def pyStr : Value → String
  | .str s => s
  | v => pyRepr v

/-- Python s.startswith(pre) on strings. -/
def strStartsWith (s pre : String) : Bool :=
  pre.data.isPrefixOf s.data

/-- Lowercasing of a string, Python s.lower() restricted to ASCII
letters (no claim involves non-ASCII case folding). -/
def lowerStr (s : String) : String :=
  String.mk (s.data.map Char.toLower)

/-- Python s.replace(backslash, slash): slash-normalization of a path,
applied character by character. -/
def slashNormalize (s : String) : String :=
  String.mk (s.data.map (fun c => if c == '\\' then '/' else c))

/-- Directory part of a path, as posixpath.dirname: everything up to
and including the last slash, with trailing slashes then stripped
unless the head is empty or consists only of slashes. -/
def posixDirname (p : String) : String :=
  let cs := p.data
  let r := cs.reverse
  let afterLen := (r.takeWhile (fun c => c != '/')).length
  if afterLen = cs.length then ""
  else
    let head := (r.drop afterLen).reverse
    if head.all (fun c => c == '/') then String.mk head
    else String.mk ((head.reverse.dropWhile (fun c => c == '/')).reverse)

/-- Extension part of a path, as posixpath.splitext: the basename
suffix from its last dot on, empty when the basename has no dot or when
every character before that dot is itself a dot (hidden files such as
dot-bashrc have no extension). -/
def posixSplitextExt (p : String) : String :=
  let base := (p.data.reverse.takeWhile (fun c => c != '/')).reverse
  let rb := base.reverse
  let extRev := rb.takeWhile (fun c => c != '.')
  if extRev.length = base.length then ""
  else if (rb.drop (extRev.length + 1)).any (fun c => c != '.') then
    String.mk ('.' :: extRev.reverse)
  else ""

/-- Containing directory of the event path as the rule engine computes
it: os.path.dirname first, then slash-normalization
(src/engine.py line 94). -/
def fileDirOf (file_path : String) : String :=
  slashNormalize (posixDirname file_path)

/-- Lowercased extension of the event path, as the rule engine computes
it (src/engine.py line 93). -/
def fileExtOf (file_path : String) : String :=
  lowerStr (posixSplitextExt file_path)

/-!  Regex scan for the placeholder pattern: an opening brace, one or
more characters other than a closing brace (greedy), then a closing
brace, exactly the pattern used in WorkflowEngine resolve variables
(src/workflow_engine.py line 125).  The scan of re.findall is rendered
as a one-pass automaton whose state is the group opened by the last
pending opening brace: the greedy body of the pattern cannot pass a
closing brace, so each opening brace matches up to the next closing
brace if one follows with at least one character in between, and an
opening brace never closed, or closed immediately, matches nothing. -/

/-- One-pass scan for all group matches of the placeholder pattern, in
order.  The state carries the group collected since the pending opening
brace, reversed; an empty group at the closing brace is the
zero-length-body failure, after which the scan resumes behind the
braces, as the regex engine does after backtracking. -/
def findallScan : List Char → Option (List Char) → List (List Char)
  | [], _ => []
  | c :: cs, Option.none =>
    if c = '\x7b' then findallScan cs (some [])
    else findallScan cs Option.none
  | c :: cs, some g =>
    if c = '\x7d' then
      if g.isEmpty then findallScan cs Option.none
      else g.reverse :: findallScan cs Option.none
    else findallScan cs (some (c :: g))

/-- All group matches of the placeholder pattern in a string, as
re.findall returns them. -/
def findallStr (s : String) : List String :=
  (findallScan s.data Option.none).map String.mk

/-- Left-to-right non-overlapping replacement of a nonempty pattern in
a character list, as Python str.replace performs it.  The fuel is the
length of the remaining input; each step consumes at least one
character, so the input always empties first. -/
def replaceFuel (pat rep : List Char) : Nat → List Char → List Char
  | 0, s => s
  | fuel + 1, s =>
    match s with
    | [] => []
    | c :: cs =>
      if pat.isPrefixOf (c :: cs) ∧ 1 ≤ pat.length then
        rep ++ replaceFuel pat rep fuel ((c :: cs).drop pat.length)
      else c :: replaceFuel pat rep fuel cs

/-- Python s.replace(pat, rep); the patterns produced by the engine
(brace-delimited placeholders) are never empty, and the empty-pattern
case keeps the string unchanged here. -/
def replaceAllStr (s pat rep : String) : String :=
  if pat.isEmpty then s
  else String.mk (replaceFuel pat.data rep.data s.data.length s.data)

/-!  Rule matching engine, from src/engine.py.  A rule is a Dict as
loaded from the rules JSON document. -/

/-- Trigger mapping of a rule: rule.get(trigger-key, empty mapping)
(src/engine.py line 100). -/
def triggerOf (rule : Dict) : Dict :=
  asDict (dictGetD rule "trigger" (Value.dict []))

/-- Extensions list of a rule trigger: trigger.get(extensions-key, [])
(src/engine.py line 112). -/
def extensionsOf (rule : Dict) : List Value :=
  asList (dictGetD (triggerOf rule) "extensions" (Value.list []))

/-- Trigger path of a rule, slash-normalized
(src/engine.py line 107). -/
def rulePathOf (rule : Dict) : String :=
  slashNormalize (asString (dictGetD (triggerOf rule) "path" (Value.str "")))

/-- Matching predicate of RuleEngine.find_matching_rules, the
conjunction of the four continue-guards of its loop
(src/engine.py lines 96 to 116). -/
def matchesRule (file_path event_type : String) (rule : Dict) : Bool :=
  pyTruthy (dictGetD rule "enabled" (Value.bool true)) &&
  valueEqStr (dictGet (triggerOf rule) "type") event_type &&
  strStartsWith (fileDirOf file_path) (rulePathOf rule) &&
  ((extensionsOf rule).isEmpty ||
    (extensionsOf rule).any (fun v => valueEqStr v (fileExtOf file_path)))

/-- RuleEngine.find_matching_rules: the append-in-a-loop of the source
is the filter of the store by the matching predicate
(src/engine.py lines 88 to 118). -/
def find_matching_rules (rules : List Dict) (file_path : String)
    (event_type : String) : List Dict :=
  rules.filter (fun r => matchesRule file_path event_type r)

/-- Zero-padded rule counter, the Python format rule_ with 03d
(src/engine.py line 56). -/
def pad3 (n : Nat) : String :=
  if n < 10 then "00" ++ toString n
  else if n < 100 then "0" ++ toString n
  else toString n

/-- RuleEngine.add_rule on the in-memory store: assign a generated id
when the given one is falsy (absent, None or empty), then append.  The
boolean result of the persistence call save_rules is file-system I/O
and is not modelled (src/engine.py lines 53 to 58). -/
def add_rule (rules : List Dict) (rule : Dict) : List Dict :=
  let r :=
    if pyTruthy (dictGet rule "id") then rule
    else dictSet rule "id" (Value.str ("rule_" ++ pad3 (rules.length + 1)))
  rules ++ [r]

/-- RuleEngine.update_rule on the in-memory store: replace the first
rule whose id equals rule_id by the updated rule with its id field
overwritten to rule_id; the boolean records whether a rule was found
(the source then returns the save_rules outcome, not modelled)
(src/engine.py lines 60 to 67). -/
def update_rule : List Dict → String → Dict → List Dict × Bool
  | [], _, _ => ([], false)
  | r :: rs, rule_id, upd =>
    if valueEqStr (dictGet r "id") rule_id then
      (dictSet upd "id" (Value.str rule_id) :: rs, true)
    else
      let p := update_rule rs rule_id upd
      (r :: p.1, p.2)

/-!  Workflow execution engine, from src/workflow_engine.py. -/

/-- One pass of the substitution loop of WorkflowEngine resolve
variables (src/workflow_engine.py lines 128 to 138): iterate over the
regex matches of the original string; a match that is a context key
either replaces the whole argument by the raw context value (when the
original string is exactly that placeholder, which forces the match
list to be that single match) or replaces every occurrence of the
placeholder in the working string by the stringified context value; an
unknown match only logs a warning.  The non-string fallthrough in the
replace branch is unreachable, since a raw replacement can only happen
on a single-match string. -/
def substMatches (ctx : Dict) (orig : String) :
    List String → Value → Value
  | [], acc => acc
  | m :: ms, acc =>
    match dictFind ctx m with
    | some cv =>
      let acc' :=
        if orig = "\x7b" ++ m ++ "\x7d" then cv
        else
          match acc with
          | .str s =>
            Value.str (replaceAllStr s ("\x7b" ++ m ++ "\x7d") (pyStr cv))
          | other => other
      substMatches ctx orig ms acc'
    | Option.none => substMatches ctx orig ms acc

mutual

/-- Resolution of one argument value
(src/workflow_engine.py lines 122 to 145): strings go through the
substitution loop over their regex matches, nested mappings recurse,
anything else passes through unchanged. -/
def resolveValue (ctx : Dict) : Value → Value
  | .str v => substMatches ctx v (findallStr v) (Value.str v)
  | .dict d => Value.dict (resolveArgs ctx d)
  | v => v

/-- WorkflowEngine resolve variables on an argument mapping
(src/workflow_engine.py lines 114 to 147). -/
def resolveArgs (ctx : Dict) : Dict → Dict
  | [] => []
  | (k, v) :: d => (k, resolveValue ctx v) :: resolveArgs ctx d

end

/-- Single left-to-right substitution pass over a string, following the
words of the specification (spec section 4.2, variable resolution): at
each placeholder occurrence, a known identifier is spliced as its
stringified value, an unknown one is left as its literal text, and the
scan continues after the occurrence.  Same one-pass automaton shape as
findallScan; text that is not part of a placeholder occurrence is
emitted unchanged, including a trailing never-closed group. -/
def specSubstScan (ctx : Dict) : List Char → Option (List Char) →
    List Char
  | [], Option.none => []
  | [], some g => '\x7b' :: g.reverse
  | c :: cs, Option.none =>
    if c = '\x7b' then specSubstScan ctx cs (some [])
    else c :: specSubstScan ctx cs Option.none
  | c :: cs, some g =>
    if c = '\x7d' then
      if g.isEmpty then
        '\x7b' :: '\x7d' :: specSubstScan ctx cs Option.none
      else
        match dictFind ctx (String.mk g.reverse) with
        | some cv => (pyStr cv).data ++ specSubstScan ctx cs Option.none
        | Option.none =>
          '\x7b' :: (g.reverse ++ '\x7d' :: specSubstScan ctx cs Option.none)
    else specSubstScan ctx cs (some (c :: g))

/-- String-level single substitution pass. -/
def specSubstOnce (ctx : Dict) (s : String) : String :=
  String.mk (specSubstScan ctx s.data Option.none)

mutual

/-- Reference resolution of one argument value, following the words of
the specification: a string that is exactly one placeholder of a known
identifier becomes the raw context value with its type preserved, any
other string gets one simultaneous substitution pass, nested mappings
recurse and other values pass through. -/
def specResolveValue (ctx : Dict) : Value → Value
  | .str v =>
    match findallStr v with
    | [k] =>
      if v = "\x7b" ++ k ++ "\x7d" then
        match dictFind ctx k with
        | some cv => cv
        | Option.none => Value.str (specSubstOnce ctx v)
      else Value.str (specSubstOnce ctx v)
    | _ => Value.str (specSubstOnce ctx v)
  | .dict d => Value.dict (specResolveArgs ctx d)
  | v => v

/-- Reference resolution of an argument mapping, following the words of
the specification. -/
def specResolveArgs (ctx : Dict) : Dict → Dict
  | [] => []
  | (k, v) :: d => (k, specResolveValue ctx v) :: specResolveArgs ctx d

end

/-- Outcome of one tool invocation through the registry, as the engine
observes it at the call site tool_registry.execute: either a returned
ToolResult mapping, or a raised exception carrying its message.  The
lookup error for an unregistered tool name is one of the raised
exceptions.  Tools returning non-mapping values break the ToolResult
contract of the data model and are out of scope. -/
inductive ToolOutcome where
  | raises : String → ToolOutcome
  | returns : Dict → ToolOutcome

/-- The tool registry as the engine consumes it: a black box from the
tool name value and the resolved keyword arguments to an outcome. -/
abbrev Invoke := Value → Dict → ToolOutcome

/-- One entry of the results list built by WorkflowEngine.execute:
either the mapping appended on a returned result
(src/workflow_engine.py lines 78 to 83), carrying the step id, the tool
name, the recorded success value and the tool result, or the mapping
appended on a caught exception (lines 96 to 101), carrying the step id,
the tool name and the error message (its success entry is False). -/
inductive StepEntry where
  | ok : Value → Value → Value → Dict → StepEntry
  | exn : Value → Value → String → StepEntry

/-- Success value stored in a results entry, read back by the final
all() reduction. -/
def stepEntrySuccess : StepEntry → Value
  | .ok _ _ s _ => s
  | .exn _ _ _ => Value.bool false

/-- Step id stored in a results entry. -/
def stepEntryId : StepEntry → Value
  | .ok i _ _ _ => i
  | .exn i _ _ => i

/-- Step id of an action at 1-based position i:
action.get(id-key, step-i) (src/workflow_engine.py line 58). -/
def stepIdOf (action : Value) (i : Nat) : Value :=
  dictGetD (asDict action) "id" (Value.str ("step" ++ toString i))

/-- Tool name of an action: action.get(tool-key), None when absent
(src/workflow_engine.py line 59). -/
def toolOf (action : Value) : Value :=
  dictGet (asDict action) "tool"

/-- Argument mapping of an action: action.get(args-key, empty mapping)
(src/workflow_engine.py line 61). -/
def argsOf (action : Value) : Dict :=
  asDict (dictGetD (asDict action) "args" (Value.dict []))

/-- Stop-on-fail flag of an action, truthy by default:
action.get(stop-on-fail-key, True) (src/workflow_engine.py line 90). -/
def stopOnFailOf (action : Value) : Bool :=
  pyTruthy (dictGetD (asDict action) "stop_on_fail" (Value.bool true))

/-- The tool invocation a step performs: the tool name applied to the
arguments resolved against the context as of the moment the step
begins (src/workflow_engine.py lines 68 and 72). -/
def stepCall (invoke : Invoke) (ctx : Dict) (action : Value) :
    ToolOutcome :=
  invoke (toolOf action) (resolveArgs ctx (argsOf action))

/-- Context after recording a returned tool result for the step at
position i: the two assignments of src/workflow_engine.py
lines 75 and 76, keyed by the stringified step id. -/
def ctxAfter (ctx : Dict) (action : Value) (i : Nat) (r : Dict) : Dict :=
  dictSet
    (dictSet ctx (pyStr (stepIdOf action i) ++ ".result")
      (dictGetD r "result" (Value.str "")))
    (pyStr (stepIdOf action i) ++ ".success")
    (dictGetD r "success" (Value.bool false))

/-- The step loop of WorkflowEngine.execute
(src/workflow_engine.py lines 57 to 102), returning the results list
and the final context.  A returned result is recorded in the context
and appended; a falsy success value stops the loop when the stop-on-
fail flag is truthy.  A raised exception appends an error entry,
records nothing in the context, and always stops the loop. -/
def runSteps (invoke : Invoke) : Dict → List Value → Nat →
    List StepEntry × Dict
  | ctx, [], _ => ([], ctx)
  | ctx, a :: rest, i =>
    match stepCall invoke ctx a with
    | .raises msg => ([StepEntry.exn (stepIdOf a i) (toolOf a) msg], ctx)
    | .returns r =>
      let entry := StepEntry.ok (stepIdOf a i) (toolOf a)
        (dictGetD r "success" (Value.bool false)) r
      let ctx2 := ctxAfter ctx a i r
      if pyTruthy (dictGet r "success") then
        let p := runSteps invoke ctx2 rest (i + 1)
        (entry :: p.1, p.2)
      else if stopOnFailOf a then ([entry], ctx2)
      else
        let p := runSteps invoke ctx2 rest (i + 1)
        (entry :: p.1, p.2)

/-- Return value of WorkflowEngine.execute: the early mapping with
success False and an error string when no workflow is loaded (a missing
workflow and a workflow that is a falsy empty mapping take the same
branch), or the final mapping with the success flag, the results list
and the context (src/workflow_engine.py lines 43 to 44 and
108 to 112). -/
inductive ExecOut where
  | notLoaded : String → ExecOut
  | done : Bool → List StepEntry → Dict → ExecOut

/-- Context seeding of WorkflowEngine.execute
(src/workflow_engine.py lines 47 to 49): the trigger context, then the
workflow name and the current timestamp.  The timestamp is a parameter
standing for datetime.now().isoformat(). -/
def initCtx (workflow trigger_context : Dict) (timestamp : String) :
    Dict :=
  dictSet
    (dictSet trigger_context "workflow.name"
      (dictGetD workflow "workflow_name" (Value.str "")))
    "workflow.timestamp" (Value.str timestamp)

/-- WorkflowEngine.execute (src/workflow_engine.py lines 32 to 112) on
a workflow mapping, a trigger context and the current timestamp.  The
final success flag is the all() reduction over the success values
stored in the results entries. -/
def execute (invoke : Invoke) (workflow trigger_context : Dict)
    (timestamp : String) : ExecOut :=
  if workflow.isEmpty then .notLoaded "워크플로우가 로드되지 않음"
  else
    let ctx := initCtx workflow trigger_context timestamp
    let actions := asList (dictGetD workflow "actions" (Value.list []))
    let p := runSteps invoke ctx actions 1
    .done (p.1.all (fun e => pyTruthy (stepEntrySuccess e))) p.1 p.2

/-- Value of the dictionary the caller passed as trigger_context once
execute returns.  The source binds self.context to the expression
trigger_context or empty-mapping (src/workflow_engine.py line 47): when
trigger_context is truthy that binding aliases the caller object and
every later context assignment mutates it in place, so it ends equal to
the returned context; when trigger_context is falsy (None or an empty
mapping) a fresh mapping is bound instead and the caller object is
never touched; the early not-loaded return happens before the binding
and touches nothing. -/
def callerContextAfter (invoke : Invoke)
    (workflow trigger_context : Dict) (timestamp : String) : Dict :=
  if trigger_context.isEmpty then trigger_context
  else
    match execute invoke workflow trigger_context timestamp with
    | .notLoaded _ => trigger_context
    | .done _ _ ctx => ctx

/-- Context keys a run recording the given results entries may have
written: the two workflow keys and the result and success keys of each
step that produced an entry. -/
def stepKeysOf (es : List StepEntry) : List String :=
  es.foldr
    (fun e acc =>
      (pyStr (stepEntryId e) ++ ".result") ::
        (pyStr (stepEntryId e) ++ ".success") :: acc)
    []

/-- All context keys WorkflowEngine.execute may modify, given the
results entries it produced. -/
def modifiedKeys (es : List StepEntry) : List String :=
  "workflow.name" :: "workflow.timestamp" :: stepKeysOf es

/-!  Action dispatcher, from src/workers.py. -/

/-- Outcome of one Python call as the dispatcher observes it: a
returned value, or a raised exception tagged with whether it is a
TypeError (the class the except clause of execute_action catches). -/
inductive CallOutcome where
  | ret : Value → CallOutcome
  | exn : Bool → String → CallOutcome

/-- A registered action handler, as a black box: whether its signature
accepts the args keyword, the body outcome when called with
file path, output path and args, and the body outcome when called with
the two positional arguments only. -/
structure Handler where
  acceptsArgs : Bool
  bodyWith : String → String → Value → CallOutcome
  bodyWithout : String → String → CallOutcome

/-- A body execution of a handler, used to trace how often and in which
form the dispatcher invokes it. -/
inductive BodyCall where
  | withArgs
  | positional
deriving DecidableEq

/-- The call handler(file_path, output_path, args=action_args): a
handler whose signature rejects the args keyword raises a TypeError at
binding time without running its body; otherwise the body runs. -/
def callRich (h : Handler) (fp op : String) (a : Value) :
    CallOutcome × List BodyCall :=
  if h.acceptsArgs then (h.bodyWith fp op a, [BodyCall.withArgs])
  else (.exn true "got an unexpected keyword argument", [])

/-- workers.execute_action (src/workers.py lines 167 to 180) over an
arbitrary handler table, instrumented with the list of handler body
executions it performs.  An unknown action type returns the error
mapping; otherwise the rich call is attempted and any TypeError from it
(a signature mismatch, or one raised inside the body) is answered by
the plain two-argument call, whose own outcome is returned as is. -/
def execute_action (handlers : String → Option Handler)
    (action_type fp op : String) (a : Value) :
    CallOutcome × List BodyCall :=
  match handlers action_type with
  | Option.none =>
    (.ret (Value.dict
      [("success", Value.bool false),
       ("error", Value.str ("Unknown action type: " ++ action_type))]), [])
  | some h =>
    let rich := callRich h fp op a
    match rich.1 with
    | .exn true _ => (h.bodyWithout fp op, rich.2 ++ [BodyCall.positional])
    | out => (out, rich.2)

/-- Comparison described by claim C4, following the words of the
specification: strip trailing slashes before the prefix test, so that
trailing separators on either path are insignificant. -/
def rstripSlashStr (s : String) : String :=
  String.mk ((s.data.reverse.dropWhile (fun c => c == '/')).reverse)

/-- Prefix test with trailing separators insignificant on either side,
the comparison claim C4 attributes to the engine. -/
def trailingInsensitivePrefix (eventDir trigPath : String) : Bool :=
  strStartsWith (rstripSlashStr eventDir) (rstripSlashStr trigPath)

/-!  Concrete fixtures used by the witnesses and counterexamples
below. -/

/-- Context with one value whose text is itself a placeholder,
exhibiting the re-substitution behaviour of the sequential replacement
loop. -/
def c2xCtx : Dict :=
  [("a", Value.str "\x7bb\x7d"), ("b", Value.str "X")]

/-- Argument mapping holding one string with two placeholders. -/
def c2xArgs : Dict :=
  [("k", Value.str "\x7ba\x7d \x7bb\x7d")]

/-- Tool oracle raising on the tool named boom and succeeding on any
other tool. -/
def c1xInvoke : Invoke := fun t _ =>
  match t with
  | Value.str "boom" => ToolOutcome.raises "kaboom"
  | _ => ToolOutcome.returns [("success", Value.bool true)]

/-- Two-step workflow whose first step raises and carries an explicit
stop-on-fail False. -/
def c1xWf : Dict :=
  [("actions", Value.list
    [Value.dict [("tool", Value.str "boom"),
                 ("stop_on_fail", Value.bool false)],
     Value.dict [("tool", Value.str "ok")]])]

/-- Tool oracle whose tool t2 reports failure and every other tool
reports success. -/
def c3xInvoke : Invoke := fun t _ =>
  match t with
  | Value.str "t2" => ToolOutcome.returns [("success", Value.bool false)]
  | _ => ToolOutcome.returns [("success", Value.bool true)]

/-- First step of the three-step workflows. -/
def c3xA1 : Value := Value.dict [("tool", Value.str "t1")]

/-- Failing middle step with stop-on-fail left absent. -/
def c3xA2 : Value := Value.dict [("tool", Value.str "t2")]

/-- Failing middle step with stop-on-fail set to False. -/
def c3xA2n : Value :=
  Value.dict [("tool", Value.str "t2"), ("stop_on_fail", Value.bool false)]

/-- Third step of the three-step workflows. -/
def c3xA3 : Value := Value.dict [("tool", Value.str "t3")]

/-- Three-step workflow whose middle step fails with the default
stop-on-fail. -/
def c3xWf : Dict :=
  [("workflow_name", Value.str "W"),
   ("actions", Value.list [c3xA1, c3xA2, c3xA3])]

/-- Three-step workflow whose middle step fails with stop-on-fail set
to False. -/
def c3xWfn : Dict :=
  [("workflow_name", Value.str "W"),
   ("actions", Value.list [c3xA1, c3xA2n, c3xA3])]

/-- Rule whose trigger path carries a trailing slash. -/
def c4xRule : Dict :=
  [("trigger", Value.dict
    [("type", Value.str "file_created"), ("path", Value.str "/a/b/")])]

/-- Rule on the directory /a/b without extension filter. -/
def c4wRule : Dict :=
  [("trigger", Value.dict
    [("type", Value.str "file_created"), ("path", Value.str "/a/b")])]

/-- Rule listing the single lowercase extension dot-txt. -/
def c5wRule : Dict :=
  [("trigger", Value.dict
    [("type", Value.str "file_created"), ("path", Value.str "/in"),
     ("extensions", Value.list [Value.str ".txt"])])]

/-- Disabled rule that would otherwise match everything under /a. -/
def c6wDisabled : Dict :=
  [("enabled", Value.bool false),
   ("trigger", Value.dict
     [("type", Value.str "file_created"), ("path", Value.str "/a")])]

/-- Rule without an enabled key. -/
def c6wAbsent : Dict :=
  [("trigger", Value.dict
    [("type", Value.str "file_created"), ("path", Value.str "/a")])]

/-- Workflow fixture with no actions key. -/
def c7wWf : Dict := [("workflow_name", Value.str "W")]

/-- Handler accepting the args keyword but raising a TypeError from its
body. -/
def c8xHandler : Handler where
  acceptsArgs := true
  bodyWith := fun _ _ _ => CallOutcome.exn true "boom"
  bodyWithout := fun _ _ => CallOutcome.ret (Value.str "plain")

/-- Handler whose signature rejects the args keyword. -/
def c8wPlainHandler : Handler where
  acceptsArgs := false
  bodyWith := fun _ _ _ => CallOutcome.exn true "unreachable"
  bodyWithout := fun _ _ => CallOutcome.ret (Value.str "two-arg result")

/-- Handler accepting the args keyword whose body returns normally. -/
def c8wRichHandler : Handler where
  acceptsArgs := true
  bodyWith := fun _ _ _ => CallOutcome.ret (Value.str "rich result")
  bodyWithout := fun _ _ => CallOutcome.ret (Value.str "unreachable")

/-- Handler table registering the two witness handlers. -/
def c8wTable : String → Option Handler := fun t =>
  if t = "plain" then some c8wPlainHandler
  else if t = "rich" then some c8wRichHandler
  else Option.none

/-- Store holding one rule with id r1. -/
def c9wStore : List Dict :=
  [[("id", Value.str "r1"), ("name", Value.str "old")]]

/-- Update payload smuggling a different id. -/
def c9wUpd : Dict :=
  [("id", Value.str "HACKED"), ("name", Value.str "new")]

/-- Workflow fixture for the context claims. -/
def c10xWf : Dict := [("workflow_name", Value.str "W")]

/-- Tool oracle that raises on every call; with no actions it is never
consulted. -/
def c10xInvoke : Invoke := fun _ _ => ToolOutcome.raises "unused"

/-- Non-empty trigger context fixture. -/
def c10wTc : Dict := [("trigger.file_path", Value.str "/a/f.txt")]

/-!  Helper lemmas on the dictionary operations and the scanners. -/

theorem dictFind_dictSet_eq (d : Dict) (k : String) (v : Value) :
    dictFind (dictSet d k v) k = some v := by
  induction d with
  | nil => simp [dictSet, dictFind]
  | cons p d ih =>
    obtain ⟨k2, w⟩ := p
    by_cases h : k2 = k
    · subst h; simp [dictSet, dictFind]
    · simp [dictSet, dictFind, h, ih]

theorem dictFind_dictSet_ne (d : Dict) (k k2 : String) (v : Value)
    (h : k2 ≠ k) : dictFind (dictSet d k v) k2 = dictFind d k2 := by
  induction d with
  | nil => simp [dictSet, dictFind, Ne.symm h]
  | cons p d ih =>
    obtain ⟨k3, w⟩ := p
    by_cases h3 : k3 = k
    · subst h3; simp [dictSet, dictFind, Ne.symm h]
    · simp only [dictSet, if_neg h3, dictFind, ih]

theorem pyTruthy_getD_false (d : Dict) (k : String) :
    pyTruthy (dictGetD d k (Value.bool false)) = pyTruthy (dictGet d k) := by
  unfold dictGetD dictGet
  cases dictFind d k <;> simp [pyTruthy]

theorem valueEqStr_iff {v : Value} {t : String} :
    valueEqStr v t = true ↔ v = Value.str t := by
  cases v <;> simp [valueEqStr]

theorem any_valueEqStr {l : List Value} {t : String} :
    l.any (fun v => valueEqStr v t) = true ↔ Value.str t ∈ l := by
  rw [List.any_eq_true]
  constructor
  · rintro ⟨v, hv, he⟩
    rw [valueEqStr_iff.mp he] at hv
    exact hv
  · intro hm
    exact ⟨Value.str t, hm, valueEqStr_iff.mpr rfl⟩

theorem substMatches_unknown (ctx : Dict) (orig : String) :
    ∀ (ms : List String) (acc : Value),
      (∀ m ∈ ms, dictFind ctx m = Option.none) →
      substMatches ctx orig ms acc = acc := by
  intro ms
  induction ms with
  | nil => intro acc _; rfl
  | cons m ms ih =>
    intro acc h
    have hm := h m (List.mem_cons_self m ms)
    simp only [substMatches, hm]
    exact ih acc (fun x hx => h x (List.mem_cons_of_mem m hx))

theorem findallScan_closed :
    ∀ (kcs g : List Char), (∀ c ∈ kcs, c ≠ '\x7d') →
      (g ≠ [] ∨ kcs ≠ []) →
      findallScan (kcs ++ ['\x7d']) (some g) = [g.reverse ++ kcs] := by
  intro kcs
  induction kcs with
  | nil =>
    intro g _ hne
    have hg : g ≠ [] := by
      rcases hne with h | h
      · exact h
      · exact absurd rfl h
    simp [findallScan, hg]
  | cons c kcs ih =>
    intro g hk _
    have hc : c ≠ '\x7d' := hk c (List.mem_cons_self c kcs)
    have := ih (c :: g) (fun x hx => hk x (List.mem_cons_of_mem c hx))
      (Or.inl (by simp))
    simp only [List.cons_append, findallScan, if_neg hc, List.append_eq]
    rw [this]
    simp

theorem findallStr_exact (k : String) (hk : k ≠ "")
    (hbrace : ∀ c ∈ k.data, c ≠ '\x7d') :
    findallStr ("\x7b" ++ k ++ "\x7d") = [k] := by
  have hdata : ("\x7b" ++ k ++ "\x7d").data = '\x7b' :: (k.data ++ ['\x7d']) := by
    cases k with
    | mk l => rfl
  have hkcs : k.data ≠ [] := by
    intro h
    apply hk
    cases k with
    | mk l => simp at h; rw [h]
  unfold findallStr
  rw [hdata]
  simp only [findallScan, if_pos rfl]
  rw [findallScan_closed k.data [] hbrace (Or.inr hkcs)]
  simp

/-!  Claim theorems. -/

/-- Claim C1, counterexample: a step whose tool raises and whose
stop-on-fail is False is not treated like an ordinary failed step, as
the claim states: the workflow of fixture c1xWf has a second step, yet
execute stops after the raising first step (one results entry, not
two), and no step1.success entry is recorded in the returned
context. -/
theorem c1_counterexample :
    execute c1xInvoke c1xWf [] "T"
      = ExecOut.done false
          [StepEntry.exn (Value.str "step1") (Value.str "boom") "kaboom"]
          [("workflow.name", Value.str ""),
           ("workflow.timestamp", Value.str "T")]
    ∧ dictFind
        [("workflow.name", Value.str ""),
         ("workflow.timestamp", Value.str "T")] "step1.success"
        = Option.none
    ∧ [StepEntry.exn (Value.str "step1") (Value.str "boom") "kaboom"].length ≠ 2 :=
  ⟨rfl, rfl, by decide⟩

/-- Claim C1 (amended): when the loop reaches a step whose tool
invocation raises, the exception is caught and converted into a failed
results entry carrying the exception message as error, and it never
propagates; but the step is not treated like an ordinary failed step:
no result or success entry for it is recorded in the context, and the
loop always stops there, regardless of the stop-on-fail flag of the
step. -/
theorem c1_exception_amended (invoke : Invoke) (ctx : Dict) (a : Value)
    (rest : List Value) (i : Nat) (msg : String)
    (h : stepCall invoke ctx a = ToolOutcome.raises msg) :
    runSteps invoke ctx (a :: rest) i =
      ([StepEntry.exn (stepIdOf a i) (toolOf a) msg], ctx) := by
  simp [runSteps, h]

/-- Claim C1, witness for the amended theorem at a concrete raising
step with stop-on-fail False and a pending second step. -/
theorem c1_exception_amended_witness :
    runSteps c1xInvoke [] (asList (dictGetD c1xWf "actions" (Value.list []))) 1 =
      ([StepEntry.exn (Value.str "step1") (Value.str "boom") "kaboom"], []) :=
  c1_exception_amended c1xInvoke []
    (Value.dict [("tool", Value.str "boom"),
                 ("stop_on_fail", Value.bool false)])
    [Value.dict [("tool", Value.str "ok")]] 1 "kaboom" rfl

/-- Claim C2, counterexample: the engine substitution is not the
single-pass reference definition.  With context c2xCtx, where the value
of key a is itself the placeholder text of key b, the sequential
replacement loop of the source re-substitutes the text it just
inserted, while the single simultaneous pass of the claim leaves it
alone. -/
theorem c2_counterexample :
    resolveArgs c2xCtx c2xArgs = [("k", Value.str "X X")]
    ∧ specResolveArgs c2xCtx c2xArgs = [("k", Value.str "\x7bb\x7d X")]
    ∧ ("X X" : String) ≠ "\x7bb\x7d X" :=
  ⟨rfl, rfl, by decide⟩

/-- Claim C2 (amended): resolution matches the reference definition
except that embedded substitution is sequential over the matched
identifiers, each pass replacing every occurrence of its placeholder in
the partially substituted working string, so stringified values that
themselves contain a later placeholder are re-substituted (see the
counterexample).  In particular: a string none of whose matched
identifiers is a context key is returned unchanged and never raises; an
argument that is exactly one placeholder of a known identifier becomes
the raw context value with its type preserved; non-string, non-mapping
values pass through unchanged; nested mappings are resolved recursively
with the same rules. -/
theorem c2_resolve_amended :
    (∀ (ctx : Dict) (v : String),
        (∀ m ∈ findallStr v, dictFind ctx m = Option.none) →
        resolveValue ctx (Value.str v) = Value.str v)
    ∧ (∀ (ctx : Dict) (k : String) (cv : Value),
        k ≠ "" → (∀ c ∈ k.data, c ≠ '\x7d') →
        dictFind ctx k = some cv →
        resolveValue ctx (Value.str ("\x7b" ++ k ++ "\x7d")) = cv)
    ∧ (∀ (ctx : Dict) (n : Int),
        resolveValue ctx (Value.int n) = Value.int n)
    ∧ (∀ (ctx : Dict) (b : Bool),
        resolveValue ctx (Value.bool b) = Value.bool b)
    ∧ (∀ (ctx : Dict) (l : List Value),
        resolveValue ctx (Value.list l) = Value.list l)
    ∧ (∀ (ctx : Dict) (d : Dict),
        resolveValue ctx (Value.dict d) = Value.dict (resolveArgs ctx d)) := by
  refine ⟨?_, ?_, fun _ _ => rfl, fun _ _ => rfl, fun _ _ => rfl,
    fun _ _ => rfl⟩
  · intro ctx v h
    exact substMatches_unknown ctx v (findallStr v) (Value.str v) h
  · intro ctx k cv hk hbrace hfind
    show substMatches ctx ("\x7b" ++ k ++ "\x7d")
      (findallStr ("\x7b" ++ k ++ "\x7d"))
      (Value.str ("\x7b" ++ k ++ "\x7d")) = cv
    rw [findallStr_exact k hk hbrace]
    simp [substMatches, hfind]

/-- Claim C2, witness for the amended theorem: an unknown placeholder
is left as its literal text, and an argument that is exactly one
placeholder of a known key takes the raw context value with its integer
type preserved (the worked example of the specification). -/
theorem c2_resolve_amended_witness :
    resolveValue [("b", Value.str "X")] (Value.str "\x7bmissing.key\x7d")
      = Value.str "\x7bmissing.key\x7d"
    ∧ resolveValue [("step1.result", Value.int 42)]
        (Value.str "\x7bstep1.result\x7d") = Value.int 42 := by
  constructor
  · refine c2_resolve_amended.1 [("b", Value.str "X")] "\x7bmissing.key\x7d" ?_
    intro m hm
    rw [show findallStr "\x7bmissing.key\x7d" = ["missing.key"] from rfl]
      at hm
    rw [List.mem_singleton.mp hm]
    rfl
  · exact c2_resolve_amended.2.1 [("step1.result", Value.int 42)]
      "step1.result" (Value.int 42) (by decide) (by decide) rfl

/-- Claim C3: in a three-step workflow whose first step succeeds, whose
second step returns a failed ToolResult and whose third step would
return normally, execute stops after the second step when its
stop-on-fail is absent (hence defaulted true), returning two results
entries and overall success false; when the stop-on-fail of the second step is
set to False all three steps run, three entries are returned, and the
overall flag is the and-reduction over the recorded success values,
here false. -/
theorem c3_three_step_failure (invoke : Invoke) (wf tc : Dict)
    (ts : String) (a1 a2 a3 : Value) (r1 r2 r3 : Dict)
    (hwf : wf.isEmpty = false)
    (hacts : dictGetD wf "actions" (Value.list []) = Value.list [a1, a2, a3])
    (h1 : stepCall invoke (initCtx wf tc ts) a1 = ToolOutcome.returns r1)
    (h1s : pyTruthy (dictGet r1 "success") = true)
    (h2 : stepCall invoke (ctxAfter (initCtx wf tc ts) a1 1 r1) a2
      = ToolOutcome.returns r2)
    (h2s : pyTruthy (dictGet r2 "success") = false)
    (h3 : stepCall invoke
        (ctxAfter (ctxAfter (initCtx wf tc ts) a1 1 r1) a2 2 r2) a3
      = ToolOutcome.returns r3) :
    (dictFind (asDict a2) "stop_on_fail" = Option.none →
      execute invoke wf tc ts = ExecOut.done false
        [StepEntry.ok (stepIdOf a1 1) (toolOf a1)
          (dictGetD r1 "success" (Value.bool false)) r1,
         StepEntry.ok (stepIdOf a2 2) (toolOf a2)
          (dictGetD r2 "success" (Value.bool false)) r2]
        (ctxAfter (ctxAfter (initCtx wf tc ts) a1 1 r1) a2 2 r2))
    ∧ (dictFind (asDict a2) "stop_on_fail" = some (Value.bool false) →
      execute invoke wf tc ts = ExecOut.done false
        [StepEntry.ok (stepIdOf a1 1) (toolOf a1)
          (dictGetD r1 "success" (Value.bool false)) r1,
         StepEntry.ok (stepIdOf a2 2) (toolOf a2)
          (dictGetD r2 "success" (Value.bool false)) r2,
         StepEntry.ok (stepIdOf a3 3) (toolOf a3)
          (dictGetD r3 "success" (Value.bool false)) r3]
        (ctxAfter (ctxAfter (ctxAfter (initCtx wf tc ts) a1 1 r1) a2 2 r2)
          a3 3 r3)) := by
  have g1 : pyTruthy (dictGetD r1 "success" (Value.bool false)) = true := by
    rw [pyTruthy_getD_false, h1s]
  have g2 : pyTruthy (dictGetD r2 "success" (Value.bool false)) = false := by
    rw [pyTruthy_getD_false, h2s]
  constructor
  · intro hstop
    have hs : stopOnFailOf a2 = true := by
      simp [stopOnFailOf, dictGetD, hstop, pyTruthy]
    simp [execute, hwf, hacts, asList, runSteps, h1, h1s, h2, h2s, hs,
      stepEntrySuccess, g1, g2]
  · intro hstop
    have hs : stopOnFailOf a2 = false := by
      simp [stopOnFailOf, dictGetD, hstop, pyTruthy]
    simp [execute, hwf, hacts, asList, runSteps, h1, h1s, h2, h2s, h3, hs,
      stepEntrySuccess, g1, g2]

/-- Claim C3, witness: the two three-step fixtures, with the middle
tool failing, yield two results entries under the default stop-on-fail
and three entries when it is set to False, with overall success false
in both runs. -/
theorem c3_three_step_failure_witness :
    (∃ es ctx, execute c3xInvoke c3xWf [] "T" = ExecOut.done false es ctx
      ∧ es.length = 2)
    ∧ (∃ es ctx, execute c3xInvoke c3xWfn [] "T" = ExecOut.done false es ctx
      ∧ es.length = 3) := by
  constructor
  · have h := (c3_three_step_failure c3xInvoke c3xWf [] "T"
      c3xA1 c3xA2 c3xA3
      [("success", Value.bool true)] [("success", Value.bool false)]
      [("success", Value.bool true)]
      rfl rfl rfl rfl rfl rfl rfl).1 rfl
    exact ⟨_, _, h, rfl⟩
  · have h := (c3_three_step_failure c3xInvoke c3xWfn [] "T"
      c3xA1 c3xA2n c3xA3
      [("success", Value.bool true)] [("success", Value.bool false)]
      [("success", Value.bool true)]
      rfl rfl rfl rfl rfl rfl rfl).2 rfl
    exact ⟨_, _, h, rfl⟩

/-- Claim C7: a loaded workflow (a non-empty mapping, as every Workflow
record of the data model is) whose actions sequence is empty, or
absent, yields overall success true, an empty results sequence, and a
context holding only the seeded entries: the final flag is the
and-reduction over the empty results sequence. -/
theorem c7_empty_actions (invoke : Invoke) (wf tc : Dict) (ts : String)
    (hwf : wf.isEmpty = false)
    (hacts : dictGetD wf "actions" (Value.list []) = Value.list []) :
    execute invoke wf tc ts = ExecOut.done true [] (initCtx wf tc ts) := by
  simp [execute, hwf, hacts, asList, runSteps]

/-- Claim C7, witness at a workflow mapping with a name and no actions
key. -/
theorem c7_empty_actions_witness :
    execute (fun _ _ => ToolOutcome.raises "unused") c7wWf [] "T"
      = ExecOut.done true []
          [("workflow.name", Value.str "W"),
           ("workflow.timestamp", Value.str "T")] :=
  c7_empty_actions (fun _ _ => ToolOutcome.raises "unused") c7wWf [] "T"
    rfl rfl

/-- Claim C4, counterexample: trailing separators on the trigger path
are significant, contrary to the claim.  The fixture rule is enabled,
its type matches, its extensions are empty, and under the
trailing-separator-insensitive comparison of the claim its path
matches the event directory; yet find_matching_rules returns nothing,
because the raw prefix test compares the directory against the path
with its trailing slash kept. -/
theorem c4_counterexample :
    find_matching_rules [c4xRule] "/a/b/f.txt" "file_created" = []
    ∧ trailingInsensitivePrefix (fileDirOf "/a/b/f.txt")
        (rulePathOf c4xRule) = true
    ∧ pyTruthy (dictGetD c4xRule "enabled" (Value.bool true)) = true
    ∧ valueEqStr (dictGet (triggerOf c4xRule) "type") "file_created" = true
    ∧ extensionsOf c4xRule = [] :=
  ⟨rfl, rfl, rfl, rfl, rfl⟩

/-- Claim C4 (amended): for every enabled rule whose trigger type
matches the event and whose extensions set is empty or absent, the rule
matches exactly the event directories whose slash-normalized form is
string-prefixed by the slash-normalized trigger path of the rule taken
verbatim: sibling directories sharing a prefix match, trailing
separators on the triggering file path are irrelevant because the
containing directory is computed without them, but a trailing separator
on the trigger path is significant and in particular prevents matching
files lying in the trigger directory itself. -/
theorem c4_prefix_amended (rules : List Dict) (r : Dict) (fp et : String)
    (hmem : r ∈ rules)
    (hen : pyTruthy (dictGetD r "enabled" (Value.bool true)) = true)
    (hty : valueEqStr (dictGet (triggerOf r) "type") et = true)
    (hext : extensionsOf r = []) :
    r ∈ find_matching_rules rules fp et ↔
      strStartsWith (fileDirOf fp) (rulePathOf r) = true := by
  unfold find_matching_rules
  rw [List.mem_filter]
  simp [matchesRule, hmem, hen, hty, hext]

/-- Claim C4, witness for the amended theorem: the sibling directory
slash-a-slash-bc is string-prefixed by the trigger path slash-a-slash-b
of the fixture rule, so a file created there matches the rule. -/
theorem c4_prefix_amended_witness :
    c4wRule ∈ find_matching_rules [c4wRule] "/a/bc/f.txt" "file_created" :=
  (c4_prefix_amended [c4wRule] c4wRule "/a/bc/f.txt" "file_created"
    (List.mem_singleton.mpr rfl) rfl rfl rfl).mpr rfl

/-- Claim C5: for a rule that is enabled, whose trigger type matches
the event and whose path prefix test passes, membership in the
find_matching_rules result holds exactly when the extensions list is
empty (any extension matches) or the lowercased extension of the file,
leading dot included, is a member of the list; the extension of the file
is compared case-insensitively because it is lowercased first. -/
theorem c5_extensions (rules : List Dict) (r : Dict) (fp et : String)
    (hmem : r ∈ rules)
    (hen : pyTruthy (dictGetD r "enabled" (Value.bool true)) = true)
    (hty : valueEqStr (dictGet (triggerOf r) "type") et = true)
    (hpre : strStartsWith (fileDirOf fp) (rulePathOf r) = true) :
    r ∈ find_matching_rules rules fp et ↔
      (extensionsOf r = [] ∨ Value.str (fileExtOf fp) ∈ extensionsOf r) := by
  unfold find_matching_rules
  rw [List.mem_filter]
  simp [matchesRule, hmem, hen, hty, hpre, any_valueEqStr,
    List.isEmpty_iff, valueEqStr_iff]

/-- Claim C5, witness: the fixture rule lists only the lowercase
extension dot-txt, and a file whose extension is uppercase dot-TXT
matches it. -/
theorem c5_extensions_witness :
    c5wRule ∈ find_matching_rules [c5wRule] "/in/F.TXT" "file_created" :=
  (c5_extensions [c5wRule] c5wRule "/in/F.TXT" "file_created"
    (List.mem_singleton.mpr rfl) rfl rfl rfl).mpr
    (Or.inr (List.mem_singleton.mpr rfl))

/-- Claim C6: find_matching_rules never returns a rule whose enabled
field is False, treats a rule without an enabled key exactly like one
enabled, and returns matching rules in store order: its result is a
sublist of the store, first registered first returned. -/
theorem c6_enabled_and_order :
    (∀ (rules : List Dict) (fp et : String),
        (find_matching_rules rules fp et).Sublist rules)
    ∧ (∀ (rules : List Dict) (fp et : String) (r : Dict),
        r ∈ find_matching_rules rules fp et →
        dictFind r "enabled" ≠ some (Value.bool false))
    ∧ (∀ (fp et : String) (r : Dict),
        dictFind r "enabled" = Option.none →
        matchesRule fp et r =
          matchesRule fp et (dictSet r "enabled" (Value.bool true))) := by
  refine ⟨?_, ?_, ?_⟩
  · intro rules fp et
    exact List.filter_sublist rules
  · intro rules fp et r hmem heq
    have hm := (List.mem_filter.mp hmem).2
    simp [matchesRule] at hm
    rw [dictGetD, heq] at hm
    simp [pyTruthy] at hm
  · intro fp et r h
    have h1 : dictFind (dictSet r "enabled" (Value.bool true)) "enabled"
        = some (Value.bool true) := dictFind_dictSet_eq r "enabled" _
    have h2 : dictFind (dictSet r "enabled" (Value.bool true)) "trigger"
        = dictFind r "trigger" :=
      dictFind_dictSet_ne r "enabled" "trigger" _ (by decide)
    simp [matchesRule, triggerOf, extensionsOf, rulePathOf, dictGetD,
      h, h1, h2, pyTruthy]

/-- Claim C6, witness: on a concrete two-rule store the result is a
sublist of the store, the disabled fixture rule is never returned, and
absence of the enabled key matches the behaviour of enabled True. -/
theorem c6_enabled_and_order_witness :
    (find_matching_rules [c6wDisabled, c6wAbsent] "/a/f.txt"
        "file_created").Sublist [c6wDisabled, c6wAbsent]
    ∧ ¬ c6wDisabled ∈ find_matching_rules [c6wDisabled, c6wAbsent]
        "/a/f.txt" "file_created"
    ∧ matchesRule "/a/f.txt" "file_created" c6wAbsent =
        matchesRule "/a/f.txt" "file_created"
          (dictSet c6wAbsent "enabled" (Value.bool true)) := by
  refine ⟨c6_enabled_and_order.1 [c6wDisabled, c6wAbsent] "/a/f.txt"
    "file_created", ?_, c6_enabled_and_order.2.2 "/a/f.txt" "file_created"
    c6wAbsent rfl⟩
  intro hmem
  exact c6_enabled_and_order.2.1 [c6wDisabled, c6wAbsent] "/a/f.txt"
    "file_created" c6wDisabled hmem rfl

/-- Claim C8, counterexample: the fallback is not taken exactly on
signature mismatches, and an args-accepting handler is not always
invoked once.  The fixture handler accepts the args keyword but raises
a TypeError from its body; the dispatcher catches it, calls the handler
a second time with the two positional arguments, and returns the result
of that second body execution. -/
theorem c8_counterexample :
    execute_action (fun _ => some c8xHandler) "t" "f" "o" (Value.dict [])
      = (CallOutcome.ret (Value.str "plain"),
         [BodyCall.withArgs, BodyCall.positional])
    ∧ c8xHandler.acceptsArgs = true
    ∧ [BodyCall.withArgs, BodyCall.positional] ≠ [BodyCall.withArgs] :=
  ⟨rfl, rfl, by decide⟩

/-- Claim C8 (amended): for every registered action type the dispatcher
first attempts the call with the args keyword and falls back to the two
positional arguments exactly when that call raises a TypeError.  A
handler whose signature rejects the keyword raises the TypeError at
binding time, before its body runs, so it is executed once, via the
plain call; a handler accepting the keyword whose body does not raise a
TypeError is executed once, via the richer call; a handler accepting
the keyword whose body raises a TypeError is executed a second time
with the positional arguments (see the counterexample). -/
theorem c8_dispatch_amended (handlers : String → Option Handler)
    (t fp op : String) (a : Value) (h : Handler)
    (hh : handlers t = some h) :
    (h.acceptsArgs = false →
      execute_action handlers t fp op a
        = (h.bodyWithout fp op, [BodyCall.positional]))
    ∧ (∀ v, h.acceptsArgs = true → h.bodyWith fp op a = CallOutcome.ret v →
      execute_action handlers t fp op a
        = (CallOutcome.ret v, [BodyCall.withArgs]))
    ∧ (∀ m, h.acceptsArgs = true →
      h.bodyWith fp op a = CallOutcome.exn false m →
      execute_action handlers t fp op a
        = (CallOutcome.exn false m, [BodyCall.withArgs]))
    ∧ (∀ m, h.acceptsArgs = true →
      h.bodyWith fp op a = CallOutcome.exn true m →
      execute_action handlers t fp op a
        = (h.bodyWithout fp op, [BodyCall.withArgs, BodyCall.positional])) := by
  refine ⟨?_, ?_, ?_, ?_⟩
  · intro hacc
    simp [execute_action, callRich, hh, hacc]
  · intro v hacc hb
    simp [execute_action, callRich, hh, hacc, hb]
  · intro m hacc hb
    simp [execute_action, callRich, hh, hacc, hb]
  · intro m hacc hb
    simp [execute_action, callRich, hh, hacc, hb]

/-- Claim C8, witness for the amended theorem: on the fixture table,
the handler rejecting the args keyword is reached through the fallback
and executed positionally once, and the args-accepting handler with a
normally returning body is executed once through the richer call. -/
theorem c8_dispatch_amended_witness :
    execute_action c8wTable "plain" "f" "o" (Value.dict [])
      = (CallOutcome.ret (Value.str "two-arg result"), [BodyCall.positional])
    ∧ execute_action c8wTable "rich" "f" "o" (Value.dict [])
      = (CallOutcome.ret (Value.str "rich result"), [BodyCall.withArgs]) :=
  ⟨(c8_dispatch_amended c8wTable "plain" "f" "o" (Value.dict [])
      c8wPlainHandler rfl).1 rfl,
   (c8_dispatch_amended c8wTable "rich" "f" "o" (Value.dict [])
      c8wRichHandler rfl).2.1 (Value.str "rich result") rfl rfl⟩

/-- Claim C9: a rule id is assigned at creation and never changes.
First part: add_rule appends exactly one rule, equal to the given one
when its id is truthy and otherwise carrying the generated id built
from the store length, and never touches existing rules.  Second part:
after any update_rule call, every rule of the store either was already
stored or carries exactly the id it was addressed by, whatever id field
the update payload smuggled in. -/
theorem c9_id_stable :
    (∀ (rules : List Dict) (rule : Dict),
        ∃ r2, add_rule rules rule = rules ++ [r2]
          ∧ (pyTruthy (dictGet rule "id") = true → r2 = rule)
          ∧ (pyTruthy (dictGet rule "id") = false →
              dictFind r2 "id"
                = some (Value.str ("rule_" ++ pad3 (rules.length + 1)))))
    ∧ (∀ (rules : List Dict) (rid : String) (upd r : Dict),
        r ∈ (update_rule rules rid upd).1 →
        r ∈ rules ∨ dictFind r "id" = some (Value.str rid)) := by
  constructor
  · intro rules rule
    cases h : pyTruthy (dictGet rule "id") with
    | true =>
      refine ⟨rule, ?_, fun _ => rfl, fun hf => by simp at hf⟩
      simp [add_rule, h]
    | false =>
      refine ⟨dictSet rule "id"
        (Value.str ("rule_" ++ pad3 (rules.length + 1))), ?_, ?_, ?_⟩
      · simp [add_rule, h]
      · intro ht; simp at ht
      · intro _; exact dictFind_dictSet_eq rule "id" _
  · intro rules rid upd r
    induction rules with
    | nil => intro h; simp [update_rule] at h
    | cons r0 rs ih =>
      intro h
      cases hid : valueEqStr (dictGet r0 "id") rid with
      | true =>
        simp only [update_rule, hid, if_true] at h
        rcases List.mem_cons.mp h with h | h
        · right; rw [h]; exact dictFind_dictSet_eq upd "id" _
        · left; exact List.mem_cons_of_mem r0 h
      | false =>
        simp only [update_rule, hid, Bool.false_eq_true, if_false] at h
        rcases List.mem_cons.mp h with h | h
        · left; rw [h]; exact List.mem_cons_self r0 rs
        · rcases ih h with h2 | h2
          · left; exact List.mem_cons_of_mem r0 h2
          · right; exact h2

/-- Claim C9, witness: updating the fixture store under id r1 with a
payload smuggling the id HACKED leaves the stored rule carrying id r1:
the stored entry is not the old rule, so the theorem pins its id to
r1. -/
theorem c9_id_stable_witness :
    dictFind (dictSet c9wUpd "id" (Value.str "r1")) "id"
      = some (Value.str "r1")
    ∧ (∃ r2, add_rule [] [("name", Value.str "n")] = [] ++ [r2]
        ∧ (pyTruthy (dictGet [("name", Value.str "n")] "id") = true →
            r2 = [("name", Value.str "n")])
        ∧ (pyTruthy (dictGet [("name", Value.str "n")] "id") = false →
            dictFind r2 "id" = some (Value.str ("rule_" ++ pad3 1)))) := by
  constructor
  · have h := c9_id_stable.2 c9wStore "r1" c9wUpd
      (dictSet c9wUpd "id" (Value.str "r1"))
      (by rw [show (update_rule c9wStore "r1" c9wUpd).1
            = [dictSet c9wUpd "id" (Value.str "r1")] from rfl]
          exact List.mem_singleton.mpr rfl)
    rcases h with h | h
    · exfalso
      have h0 : ([("id", Value.str "r1"), ("name", Value.str "new")] : Dict)
          = [("id", Value.str "r1"), ("name", Value.str "old")] :=
        List.mem_singleton.mp h
      have h1 : some (Value.str "new") = some (Value.str "old") :=
        congrArg (fun d => dictFind d "name") h0
      injection h1 with h2
      injection h2 with h3
      exact absurd h3 (by decide)
    · exact h
  · exact c9_id_stable.1 [] [("name", Value.str "n")]

/-- Frame property of the step loop: a context key that is not a result
or success key of any produced results entry is untouched by the
loop. -/
theorem runSteps_frame (invoke : Invoke) (k : String) :
    ∀ (actions : List Value) (ctx : Dict) (i : Nat),
      ¬ k ∈ stepKeysOf (runSteps invoke ctx actions i).1 →
      dictFind (runSteps invoke ctx actions i).2 k = dictFind ctx k := by
  intro actions
  induction actions with
  | nil => intro ctx i _; rfl
  | cons a rest ih =>
    intro ctx i h
    cases hc : stepCall invoke ctx a with
    | raises msg => simp [runSteps, hc]
    | returns r =>
      simp only [runSteps, hc] at h ⊢
      by_cases ht : pyTruthy (dictGet r "success") = true
      · simp only [ht, if_true] at h ⊢
        simp only [stepKeysOf, List.foldr_cons, stepEntryId,
          List.mem_cons] at h
        push_neg at h
        obtain ⟨h1, h2, h3⟩ := h
        rw [ih _ _ (by simpa [stepKeysOf] using h3)]
        unfold ctxAfter
        rw [dictFind_dictSet_ne _ _ _ _ h2, dictFind_dictSet_ne _ _ _ _ h1]
      · simp only [ht, Bool.false_eq_true, if_false] at h ⊢
        by_cases hs : stopOnFailOf a = true
        · simp only [hs, if_true] at h ⊢
          simp only [stepKeysOf, List.foldr_cons, stepEntryId,
            List.mem_cons] at h
          push_neg at h
          obtain ⟨h1, h2, _⟩ := h
          unfold ctxAfter
          rw [dictFind_dictSet_ne _ _ _ _ h2, dictFind_dictSet_ne _ _ _ _ h1]
        · simp only [hs, Bool.false_eq_true, if_false] at h ⊢
          simp only [stepKeysOf, List.foldr_cons, stepEntryId,
            List.mem_cons] at h
          push_neg at h
          obtain ⟨h1, h2, h3⟩ := h
          rw [ih _ _ (by simpa [stepKeysOf] using h3)]
          unfold ctxAfter
          rw [dictFind_dictSet_ne _ _ _ _ h2, dictFind_dictSet_ne _ _ _ _ h1]

/-- Claim C10 (amended): a completed execute call modifies the context
only at the workflow name and timestamp keys and at the result and
success keys of recorded steps, so every other key of the initial
trigger context keeps its original binding in the returned context; and
when the passed trigger context is truthy (a non-empty mapping), the
mapping the caller passed is the very object the engine mutates in
place, ending equal to the returned context.  A falsy trigger context
(None or an empty mapping) is replaced by a fresh mapping instead (see
the counterexample). -/
theorem c10_frame_amended :
    (∀ (invoke : Invoke) (wf tc : Dict) (ts k : String)
        (s : Bool) (es : List StepEntry) (ctx : Dict),
        execute invoke wf tc ts = ExecOut.done s es ctx →
        ¬ k ∈ modifiedKeys es →
        dictFind ctx k = dictFind tc k)
    ∧ (∀ (invoke : Invoke) (wf tc : Dict) (ts : String),
        tc.isEmpty = false → wf.isEmpty = false →
        ∃ s es ctx, execute invoke wf tc ts = ExecOut.done s es ctx ∧
          callerContextAfter invoke wf tc ts = ctx) := by
  constructor
  · intro invoke wf tc ts k s es ctx hexec hmod
    simp only [modifiedKeys, List.mem_cons] at hmod
    push_neg at hmod
    obtain ⟨hk1, hk2, hk3⟩ := hmod
    cases hwf : wf.isEmpty with
    | true => rw [execute, if_pos (by simp [hwf])] at hexec; cases hexec
    | false =>
      rw [execute, if_neg (by simp [hwf])] at hexec
      injection hexec with _ hes hctx
      subst hes; subst hctx
      rw [runSteps_frame invoke k _ _ _ hk3]
      unfold initCtx
      rw [dictFind_dictSet_ne _ _ _ _ hk2, dictFind_dictSet_ne _ _ _ _ hk1]
  · intro invoke wf tc ts htc hwf
    have hexec : execute invoke wf tc ts
        = ExecOut.done
            ((runSteps invoke (initCtx wf tc ts)
              (asList (dictGetD wf "actions" (Value.list []))) 1).1.all
              (fun e => pyTruthy (stepEntrySuccess e)))
            (runSteps invoke (initCtx wf tc ts)
              (asList (dictGetD wf "actions" (Value.list []))) 1).1
            (runSteps invoke (initCtx wf tc ts)
              (asList (dictGetD wf "actions" (Value.list []))) 1).2 := by
      rw [execute, if_neg (by simp [hwf])]
    refine ⟨_, _, _, hexec, ?_⟩
    rw [callerContextAfter, if_neg (by simp [htc]), hexec]

/-- Claim C10, witness for the amended theorem: with the non-empty
fixture trigger context, the file-path entry survives a run of the
no-action workflow unchanged, and the mapping of the caller ends equal to
the returned context. -/
theorem c10_frame_amended_witness :
    dictFind
        [("trigger.file_path", Value.str "/a/f.txt"),
         ("workflow.name", Value.str "W"),
         ("workflow.timestamp", Value.str "T")] "trigger.file_path"
      = dictFind c10wTc "trigger.file_path"
    ∧ (∃ s es ctx,
        execute c10xInvoke c10xWf c10wTc "T" = ExecOut.done s es ctx ∧
          callerContextAfter c10xInvoke c10xWf c10wTc "T" = ctx) :=
  ⟨c10_frame_amended.1 c10xInvoke c10xWf c10wTc "T" "trigger.file_path"
      true []
      [("trigger.file_path", Value.str "/a/f.txt"),
       ("workflow.name", Value.str "W"),
       ("workflow.timestamp", Value.str "T")]
      rfl (by decide),
   c10_frame_amended.2 c10xInvoke c10xWf c10wTc "T" rfl rfl⟩

/-- Claim C10, counterexample: the returned context is not always the
mapping the caller passed in.  Passing an empty trigger context, the
source replaces it by a fresh mapping, so the mapping of the caller is left
empty while the returned context carries the two seeded entries. -/
theorem c10_counterexample :
    callerContextAfter c10xInvoke c10xWf [] "T" = []
    ∧ execute c10xInvoke c10xWf [] "T"
      = ExecOut.done true []
          [("workflow.name", Value.str "W"),
           ("workflow.timestamp", Value.str "T")]
    ∧ ([] : Dict).length ≠
        [("workflow.name", Value.str "W"),
         ("workflow.timestamp", Value.str "T")].length :=
  ⟨rfl, rfl, by decide⟩

end CarteBlanche
